import Mathlib

/-!
Verification development for a transparent gRPC fan-out/fan-in proxy.

The embedding models, from the source:
  * `forwardServerToClients`  — the downstream→backends broadcast pipeline
    (receive a frame from the server stream, send it to every backend client
    stream; on `io.EOF` call `CloseSend` on every destination and return; on
    any other receive error put it on the pending-error channel and return;
    a failing `SendMsg` to a destination is logged and `break`s out of the
    inner destinations loop only).
  * `forwardClientsToServerUnary` — the backends→downstream fan-in pipeline
    (one follower goroutine per backend pushing each received payload onto a
    buffered delivery channel; a coordinator waits for all followers,
    concatenates the queued payloads in delivery order into one merged frame
    and sends it, putting `SendMsg`'s result on the pending-error channel).
  * `handler.handler`         — the per-call orchestration: method lookup,
    director invocation, backend stream establishment, and the `select` that
    arbitrates the two pipelines' completion.
  * `ServerStreamWrapper`     — the two-mutex synchronized stream wrapper.
  * `Director`                — the sample routing function in `main.go`.

Concurrency is abstracted as follows: the delivery channel's contents are any
interleaving (`Interleaving`) of the per-follower payload sequences, since
each follower pushes its payloads in its own receive order onto one FIFO
channel; the `select` between the two pending-error channels is modelled by a
`FirstSignal` value saying which pipeline signalled first and with what value.
-/

namespace GrpcProxy

/-- Payload bytes; the proxy treats them as opaque. -/
abbrev Byte := Nat

/-- `frame.payload`: the opaque byte sequence carried by one message. -/
abbrev Frame := List Byte

/-- Metadata (`metadata.MD`), opaque in this model. -/
abbrev MD := Nat

/-- A `*grpc.ClientConn` handle, opaque in this model. -/
abbrev Conn := Nat

/-- Errors as the Go code distinguishes them: the `io.EOF` sentinel,
a gRPC status created by `grpc.Errorf(code, msg)`, a gRPC status wrapping a
cause (`grpc.Errorf(code, "...: %v", err)`), and arbitrary transport errors. -/
inductive GErr where
  | eof
  | status (code : Nat) (msg : String)
  | statusOf (code : Nat) (msg : String) (cause : GErr)
  | transport (id : Nat)
deriving DecidableEq, Repr

/-- `codes.Unimplemented`. -/
def codeUnimplemented : Nat := 12

/-- `codes.Internal`. -/
def codeInternal : Nat := 13

/-! ## Broadcast pipeline: `forwardServerToClients` -/

/-- How the downstream receive loop ends: `io.EOF` (caller half-closed) or a
receive error. -/
inductive DownTerm where
  | eof
  | rerr (e : GErr)
deriving DecidableEq, Repr

/-- Result of one run of the broadcast goroutine.
`framesSent` records, per inbound frame in receive order, the destination
indices whose `SendMsg` succeeded; `closeSent` the destinations that got
`CloseSend`; `retProduced` the values sent on the pending-error channel
`ret`; `retClosed` whether `ret` was ever closed (the code never closes it). -/
structure BcastResult where
  framesSent : List (Frame × List Nat)
  closeSent : List Nat
  retProduced : List (Option GErr)
  retClosed : Bool
deriving DecidableEq, Repr

/-- The inner `for i := range destinations` loop for one frame: `SendMsg` to
destinations `0, 1, ...` in order; the first failing send is logged and
`break`s, so exactly the longest successful prefix of `[0, n)` receives the
frame. `sendRes i` is destination `i`'s `SendMsg` result for this frame. -/
def sendToDestinations (sendRes : Nat → Option GErr) (n : Nat) : List Nat :=
  (List.range n).takeWhile (fun i => (sendRes i).isNone)

/-- Values sent on `ret` by the receive loop's terminal step: nothing on
`io.EOF` (the goroutine just returns), the error on any other receive error. -/
def termRet : DownTerm → List (Option GErr)
  | .eof => []
  | .rerr e => [some e]

/-- Destinations `CloseSend`-ed at the terminal step: all of them on `io.EOF`,
none on a receive error. -/
def termClose (n : Nat) : DownTerm → List Nat
  | .eof => List.range n
  | .rerr _ => []

/-- The outer `for {}` receive loop of `forwardServerToClients`: `frames` are
the payloads received from the downstream stream before the terminal outcome
`term`; `k` is the index of the next frame; `sendRes k i` is the result of
sending frame `k` to destination `i`. -/
def bcastLoop (n : Nat) (sendRes : Nat → Nat → Option GErr) (term : DownTerm) :
    List Frame → Nat → BcastResult
  | [], _ => ⟨[], termClose n term, termRet term, false⟩
  | f :: rest, k =>
    let r := bcastLoop n sendRes term rest (k + 1)
    ⟨(f, sendToDestinations (sendRes k) n) :: r.framesSent,
      r.closeSent, r.retProduced, r.retClosed⟩

/-- `forwardServerToClients` with `n` destinations: broadcast every received
frame, then handle the terminal receive outcome. -/
def forwardServerToClients (n : Nat) (sendRes : Nat → Nat → Option GErr)
    (frames : List Frame) (term : DownTerm) : BcastResult :=
  bcastLoop n sendRes term frames 0

/-- The frames destination `i` actually received, in order. -/
def destReceived (r : BcastResult) (i : Nat) : List Frame :=
  (r.framesSent.filter (fun p => decide (i ∈ p.2))).map Prod.fst

theorem bcastLoop_retProduced (n : Nat) (sendRes : Nat → Nat → Option GErr)
    (term : DownTerm) : ∀ (fs : List Frame) (k : Nat),
    (bcastLoop n sendRes term fs k).retProduced = termRet term := by
  intro fs
  induction fs with
  | nil => intro k; rfl
  | cons f rest ih => intro k; simpa [bcastLoop] using ih (k + 1)

theorem bcastLoop_closeSent (n : Nat) (sendRes : Nat → Nat → Option GErr)
    (term : DownTerm) : ∀ (fs : List Frame) (k : Nat),
    (bcastLoop n sendRes term fs k).closeSent = termClose n term := by
  intro fs
  induction fs with
  | nil => intro k; rfl
  | cons f rest ih => intro k; simpa [bcastLoop] using ih (k + 1)

theorem bcastLoop_retClosed (n : Nat) (sendRes : Nat → Nat → Option GErr)
    (term : DownTerm) : ∀ (fs : List Frame) (k : Nat),
    (bcastLoop n sendRes term fs k).retClosed = false := by
  intro fs
  induction fs with
  | nil => intro k; rfl
  | cons f rest ih => intro k; simpa [bcastLoop] using ih (k + 1)

theorem bcastLoop_framesSent_length (n : Nat) (sendRes : Nat → Nat → Option GErr)
    (term : DownTerm) : ∀ (fs : List Frame) (k : Nat),
    (bcastLoop n sendRes term fs k).framesSent.length = fs.length := by
  intro fs
  induction fs with
  | nil => intro k; rfl
  | cons f rest ih => intro k; simpa [bcastLoop] using ih (k + 1)

theorem sendToDestinations_allOk (sendRes : Nat → Option GErr) (n : Nat)
    (hok : ∀ j, sendRes j = none) :
    sendToDestinations sendRes n = List.range n := by
  apply List.takeWhile_eq_self_iff.mpr
  intro x _
  simp [hok x]

theorem bcastLoop_framesSent_allOk (n : Nat) (sendRes : Nat → Nat → Option GErr)
    (term : DownTerm) (hok : ∀ k j, sendRes k j = none) :
    ∀ (fs : List Frame) (k : Nat),
    (bcastLoop n sendRes term fs k).framesSent =
      fs.map (fun f => (f, List.range n)) := by
  intro fs
  induction fs with
  | nil => intro k; rfl
  | cons f rest ih =>
    intro k
    simp only [bcastLoop, List.map_cons]
    refine congrArg₂ (· :: ·) ?_ (ih (k + 1))
    rw [sendToDestinations_allOk _ _ (hok k)]

theorem destReceived_allOk (n : Nat) (sendRes : Nat → Nat → Option GErr)
    (frames : List Frame) (term : DownTerm) (i : Nat) (hi : i < n)
    (hok : ∀ k j, sendRes k j = none) :
    destReceived (forwardServerToClients n sendRes frames term) i = frames := by
  unfold destReceived forwardServerToClients
  rw [bcastLoop_framesSent_allOk n sendRes term hok]
  induction frames with
  | nil => rfl
  | cons f rest ih =>
    simp only [List.map_cons, List.filter_cons]
    rw [if_pos (by simpa using List.mem_range.mpr hi)]
    simpa using ih

/-- C2: every frame the caller sends before half-close is broadcast to every
backend byte-identical and in the caller's send order (for runs where the
backend sends succeed), and on `io.EOF` from downstream the pipeline
`CloseSend`s every backend stream and terminates cleanly (no error value). -/
theorem broadcast_delivers_in_order (n : Nat) (sendRes : Nat → Nat → Option GErr)
    (frames : List Frame) (i : Nat) (hi : i < n)
    (hok : ∀ k j, sendRes k j = none) :
    destReceived (forwardServerToClients n sendRes frames .eof) i = frames ∧
    (forwardServerToClients n sendRes frames .eof).closeSent = List.range n ∧
    (forwardServerToClients n sendRes frames .eof).retProduced = [] := by
  refine ⟨destReceived_allOk n sendRes frames .eof i hi hok, ?_, ?_⟩
  · exact bcastLoop_closeSent n sendRes .eof frames 0
  · exact bcastLoop_retProduced n sendRes .eof frames 0

/-- C2 witness: two backends, two frames, all sends succeed. -/
theorem broadcast_delivers_in_order_witness :
    destReceived (forwardServerToClients 2 (fun _ _ => none) [[1, 2], [3]] .eof) 0
      = [[1, 2], [3]] ∧
    (forwardServerToClients 2 (fun _ _ => none) [[1, 2], [3]] .eof).closeSent
      = List.range 2 ∧
    (forwardServerToClients 2 (fun _ _ => none) [[1, 2], [3]] .eof).retProduced
      = [] :=
  broadcast_delivers_in_order 2 (fun _ _ => none) [[1, 2], [3]] 0 (by decide)
    (fun _ _ => rfl)

/-! ## Fan-in pipeline: `forwardClientsToServerUnary` -/

/-- How one backend follower's receive loop ends: `io.EOF` (with the
backend's trailer metadata available from `src.Trailer()`) or another
receive error. -/
inductive BackTerm where
  | eof (trailer : MD)
  | rerr (e : GErr)
deriving DecidableEq, Repr

/-- Observable actions of one follower goroutine on shared state:
`dst.SetHeader`, `payloadCh <- f.payload`, `dst.SetTrailer`. -/
inductive FollowerAct where
  | setHeader (md : MD)
  | pushPayload (f : Frame)
  | setTrailer (md : MD)
deriving DecidableEq, Repr

/-- Terminal actions of the follower loop: on `io.EOF` it calls
`dst.SetTrailer(src.Trailer())` and returns; on any other receive error it
logs and returns with no action. -/
def followerTermActs : BackTerm → List FollowerAct
  | .eof t => [.setTrailer t]
  | .rerr _ => []

/-- The follower's `for j := 0; ; j++` receive loop. `hdr` is the result of
`src.Header()` (consulted only at `j = 0`): on header error the follower logs
and returns, dropping the first frame; on success it `SetHeader`s before
queueing (a failing `SetHeader` is only logged, so it is not modelled as a
branch). `fs` are the payloads received before the terminal outcome. -/
def followerLoop (hdr : Except GErr MD) (term : BackTerm) :
    List Frame → Nat → List FollowerAct
  | [], _ => followerTermActs term
  | f :: rest, j =>
    if j = 0 then
      match hdr with
      | .error _ => []
      | .ok md => .setHeader md :: .pushPayload f :: followerLoop hdr term rest (j + 1)
    else .pushPayload f :: followerLoop hdr term rest (j + 1)

/-- One follower goroutine of `forwardClientsToServerUnary`. -/
def followerRun (hdr : Except GErr MD) (term : BackTerm) (frames : List Frame) :
    List FollowerAct :=
  followerLoop hdr term frames 0

/-- The payloads a follower pushed onto the delivery channel, in order. -/
def followerQueued : List FollowerAct → List Frame
  | [] => []
  | .pushPayload f :: rest => f :: followerQueued rest
  | .setHeader _ :: rest => followerQueued rest
  | .setTrailer _ :: rest => followerQueued rest

/-- `merged = append(merged, b...)` over the drained delivery channel:
concatenation of the queued payloads in delivery order. -/
def mergedPayload (delivery : List Frame) : Frame := delivery.flatten

/-- Result of the fan-in coordinator: the single merged frame sent
downstream, the values sent on the pending-error channel `ret` (exactly the
result of `dst.SendMsg(&frame{payload: merged})`), and whether `ret` was ever
closed (never). -/
structure FanInResult where
  mergedSent : Frame
  retProduced : List (Option GErr)
  retClosed : Bool
deriving DecidableEq, Repr

/-- The coordinator of `forwardClientsToServerUnary`: waits for all
followers, drains the delivery channel (whose contents `delivery` are an
interleaving of the followers' queued sequences), concatenates, sends the
merged frame with result `sendRes`, and signals that result on `ret`. -/
def forwardClientsToServerUnary (delivery : List Frame) (sendRes : Option GErr) :
    FanInResult :=
  ⟨mergedPayload delivery, [sendRes], false⟩

/-- `Interleaving srcs out`: `out` is an interleaving of the sequences
`srcs`, each source's relative order preserved — the possible contents of a
FIFO channel fed by one producer per source pushing in order. -/
inductive Interleaving {α : Type} : List (List α) → List α → Prop where
  | done : ∀ {srcs : List (List α)}, (∀ s, s ∈ srcs → s = []) → Interleaving srcs []
  | step : ∀ {srcs : List (List α)} {out : List α} (i : Nat) (x : α)
      (rest : List α) (h : i < srcs.length),
      srcs.get ⟨i, h⟩ = x :: rest →
      Interleaving (srcs.set i rest) out →
      Interleaving srcs (x :: out)

theorem flatten_set_perm {α : Type} :
    ∀ (l : List (List α)) (i : Nat) (x : α) (rest : List α) (h : i < l.length),
    l.get ⟨i, h⟩ = x :: rest →
    l.flatten.Perm (x :: (l.set i rest).flatten) := by
  intro l
  induction l with
  | nil => intro i x rest h; exact absurd h (by simp)
  | cons s tl ih =>
    intro i x rest h hget
    cases i with
    | zero =>
      simp only [List.get] at hget
      subst hget
      simp [List.flatten_cons]
    | succ i =>
      simp only [List.get] at hget
      have hlt : i < tl.length := Nat.lt_of_succ_lt_succ h
      have hperm := ih i x rest hlt hget
      have hgoal : (s ++ tl.flatten).Perm (x :: (s ++ (tl.set i rest).flatten)) :=
        (hperm.append_left s).trans List.perm_middle
      simpa [List.flatten_cons] using hgoal

theorem Interleaving.perm_flatten {α : Type} {srcs : List (List α)}
    {out : List α} (h : Interleaving srcs out) : out.Perm srcs.flatten := by
  induction h with
  | done hempty =>
    have : _ = ([] : List α) := List.flatten_eq_nil_iff.mpr hempty
    rw [this]
  | step i x rest hlt hget _ ih =>
    exact (ih.cons x).trans (flatten_set_perm _ i x rest hlt hget).symm

theorem Interleaving.single {α : Type} :
    ∀ {srcs : List (List α)} {out : List α}, Interleaving srcs out →
    ∀ fs : List α, srcs = [fs] → out = fs := by
  intro srcs out h
  induction h with
  | done hempty =>
    intro fs hs
    subst hs
    exact (hempty fs (by simp)).symm
  | step i x rest hlt hget _ ih =>
    intro fs hs
    subst hs
    have hi : i = 0 := Nat.lt_one_iff.mp (by simpa using hlt)
    subst hi
    simp only [List.get] at hget
    have := ih rest (by simp)
    rw [this, ← hget]

theorem interleaving_shift {α : Type} {srcs : List (List α)} {out : List α}
    (h : Interleaving srcs out) (s : List α) (hs : s = []) :
    Interleaving (s :: srcs) out := by
  subst hs
  induction h with
  | done hempty =>
    refine .done ?_
    intro t ht
    cases ht with
    | head => rfl
    | tail _ h2 => exact hempty t h2
  | step i x rest hlt hget _ ih =>
    exact .step (i + 1) x rest (by simpa using Nat.succ_lt_succ hlt)
      (by simpa using hget) (by simpa using ih)

theorem interleaving_cons {α : Type} :
    ∀ (s : List α) {srcs : List (List α)} {out : List α},
    Interleaving srcs out → Interleaving (s :: srcs) (s ++ out) := by
  intro s
  induction s with
  | nil => intro srcs out h; simpa using interleaving_shift h [] rfl
  | cons x t ih =>
    intro srcs out h
    exact .step 0 x t (by simp) rfl (by simpa using ih h)

/-- Sequential delivery (each source drained in turn) is one possible
interleaving. -/
theorem interleaving_self {α : Type} :
    ∀ srcs : List (List α), Interleaving srcs srcs.flatten := by
  intro srcs
  induction srcs with
  | nil => exact .done (by simp)
  | cons s tl ih => simpa [List.flatten_cons] using interleaving_cons s ih

/-- C1: whatever delivery order the followers' race produces, the single
merged frame sent downstream is a permutation, at frame and at byte
granularity, of everything the backends' followers queued — no byte
duplicated, none omitted; and with exactly one backend the merged frame is
exactly that backend's frames concatenated in its own order (lossless,
order-preserving round trip). -/
theorem fanIn_merge_spec (received : List (List Frame)) (delivery : List Frame)
    (sendRes : Option GErr) (h : Interleaving received delivery) :
    delivery.Perm received.flatten ∧
    (forwardClientsToServerUnary delivery sendRes).mergedSent.Perm
      received.flatten.flatten ∧
    (∀ fs : List Frame, received = [fs] →
      (forwardClientsToServerUnary delivery sendRes).mergedSent = fs.flatten) := by
  refine ⟨h.perm_flatten, ?_, ?_⟩
  · exact h.perm_flatten.flatten
  · intro fs hfs
    have : delivery = fs := h.single fs hfs
    simp [forwardClientsToServerUnary, mergedPayload, this]

/-- C1 witness: two backends queueing `[[1],[2]]` and `[[3]]`, sequential
delivery order. -/
theorem fanIn_merge_spec_witness :
    ([[1], [2], [3]] : List Frame).Perm ([[[1], [2]], [[3]]] : List (List Frame)).flatten ∧
    (forwardClientsToServerUnary [[1], [2], [3]] none).mergedSent.Perm
      ([[[1], [2]], [[3]]] : List (List Frame)).flatten.flatten ∧
    (∀ fs : List Frame, ([[[1], [2]], [[3]]] : List (List Frame)) = [fs] →
      (forwardClientsToServerUnary [[1], [2], [3]] none).mergedSent = fs.flatten) :=
  fanIn_merge_spec [[[1], [2]], [[3]]] [[1], [2], [3]] none
    (interleaving_self [[[1], [2]], [[3]]])

theorem followerLoop_tail (hdr : Except GErr MD) (term : BackTerm) :
    ∀ (fs : List Frame) (j : Nat),
    followerLoop hdr term fs (j + 1) =
      fs.map FollowerAct.pushPayload ++ followerTermActs term := by
  intro fs
  induction fs with
  | nil => intro j; rfl
  | cons f rest ih =>
    intro j
    simp [followerLoop, ih (j + 1)]

theorem followerRun_ok (md : MD) (term : BackTerm) (f : Frame) (rest : List Frame) :
    followerRun (.ok md) term (f :: rest) =
      .setHeader md :: .pushPayload f ::
        (rest.map FollowerAct.pushPayload ++ followerTermActs term) := by
  simp only [followerRun, followerLoop, followerLoop_tail]
  simp

theorem followerQueued_pushes (tail : List FollowerAct) :
    ∀ fs : List Frame,
    followerQueued (fs.map FollowerAct.pushPayload ++ tail) =
      fs ++ followerQueued tail := by
  intro fs
  induction fs with
  | nil => rfl
  | cons f rest ih => simp only [List.map_cons, List.cons_append, followerQueued]
                      rw [show (List.map FollowerAct.pushPayload rest).append tail =
                        List.map FollowerAct.pushPayload rest ++ tail from rfl, ih]

/-- C8: a follower whose header retrieval succeeds propagates the backend's
response header metadata downstream before its first payload is queued; it
queues exactly the frames it received, in their order; on end-of-input it
propagates the backend's trailer metadata as its last action and exits; on an
independent receive error it just exits, and in all cases the pipeline's only
pending-error value is the coordinator's send result. -/
theorem follower_metadata_spec (md trailer : MD) (f : Frame) (rest : List Frame)
    (e : GErr) :
    followerRun (.ok md) (.eof trailer) (f :: rest) =
      .setHeader md :: .pushPayload f ::
        (rest.map FollowerAct.pushPayload ++ [.setTrailer trailer]) ∧
    followerQueued (followerRun (.ok md) (.eof trailer) (f :: rest)) = f :: rest ∧
    followerRun (.ok md) (.rerr e) (f :: rest) =
      .setHeader md :: .pushPayload f :: rest.map FollowerAct.pushPayload ∧
    followerQueued (followerRun (.ok md) (.rerr e) (f :: rest)) = f :: rest ∧
    followerRun (.ok md) (.eof trailer) [] = [.setTrailer trailer] ∧
    (∀ (delivery : List Frame) (sendRes : Option GErr),
      (forwardClientsToServerUnary delivery sendRes).retProduced = [sendRes]) := by
  refine ⟨by simpa [followerTermActs] using followerRun_ok md (.eof trailer) f rest,
    ?_, by simpa [followerTermActs] using followerRun_ok md (.rerr e) f rest,
    ?_, rfl, fun _ _ => rfl⟩
  · rw [followerRun_ok]
    simp only [followerQueued, followerQueued_pushes, followerTermActs]
    simp [followerQueued]
  · rw [followerRun_ok]
    simp only [followerQueued, followerQueued_pushes, followerTermActs]
    simp [followerQueued]

/-! ## Per-call orchestration: `handler.handler` -/

/-- What the director returned: the backend connections and the error (the
outgoing context is irrelevant to the orchestration logic modelled here). -/
structure DirectorReply where
  conns : List Conn
  err : Option GErr
deriving DecidableEq, Repr

/-- Which pipeline's pending-error channel the `select` reads first, and the
value read. The broadcast channel only ever carries a receive error (see
`termRet`); the fan-in channel carries `dst.SendMsg`'s result, which may be
`nil`. -/
inductive FirstSignal where
  | s2c (e : GErr)
  | c2s (e : Option GErr)
deriving DecidableEq, Repr

/-- Observable outcome of one `handler.handler` invocation: the error
returned to the gRPC server (`none` means the call completed successfully),
how many backend streams were successfully opened, whether `clientCancel`
was invoked, and whether the two forwarding pipelines were ever started. -/
structure HandlerResult where
  result : Option GErr
  opened : Nat
  cancelCalled : Bool
  pipelinesStarted : Bool
deriving DecidableEq, Repr

/-- The `for i := range backendConns` loop opening one `grpc.NewClientStream`
per connection: scanning indices `i, i+1, ...` for `fuel` more entries, the
first failing open (if any) together with its index. -/
def firstOpenFailure (openRes : Nat → Option GErr) : Nat → Nat → Option (Nat × GErr)
  | 0, _ => none
  | fuel + 1, i =>
    match openRes i with
    | some e => some (i, e)
    | none => firstOpenFailure openRes fuel (i + 1)

/-- `grpc.Errorf(codes.Internal, "lowLevelServerStream not exists in context")`. -/
def errNoMethod : GErr := .status codeInternal "lowLevelServerStream not exists in context"

/-- The DRAINING `select`: on a broadcast signal, call `clientCancel()` and
return `grpc.Errorf(codes.Internal, "failed proxying s2c: %v", s2cErr)`; on a
fan-in signal `c2sErr`, return `nil` if `c2sErr == io.EOF` and `c2sErr`
itself otherwise (so a `nil` signal also returns `nil`). -/
def drainSelect (sig : FirstSignal) (n : Nat) : HandlerResult :=
  match sig with
  | .s2c e => ⟨some (.statusOf codeInternal "failed proxying s2c" e), n, true, true⟩
  | .c2s e => ⟨if e = some .eof then none else e, n, false, true⟩

/-- `handler.handler`: method lookup, director call, backend stream
establishment (aborting on the first failure, without cancelling), then the
pipeline arbitration. `openRes i` is `grpc.NewClientStream`'s result for
backend `i`; `sig` is the first pipeline signal the `select` observes. -/
def handler (methodOk : Bool) (dir : DirectorReply) (openRes : Nat → Option GErr)
    (sig : FirstSignal) : HandlerResult :=
  if !methodOk then ⟨some errNoMethod, 0, false, false⟩
  else
    match dir.err with
    | some e => ⟨some e, 0, false, false⟩
    | none =>
      match firstOpenFailure openRes dir.conns.length 0 with
      | some (i, e) => ⟨some e, i, false, false⟩
      | none => drainSelect sig dir.conns.length

/-- C4: when the director returns an error (such as the sample director's
unimplemented-route status), the handler returns exactly that error, opens no
backend stream and starts no forwarding pipeline. -/
theorem handler_director_error (dir : DirectorReply) (openRes : Nat → Option GErr)
    (sig : FirstSignal) (e : GErr) (h : dir.err = some e) :
    handler true dir openRes sig = ⟨some e, 0, false, false⟩ := by
  simp [handler, h]

/-- C4 witness: the sample director's unimplemented-route error. -/
theorem handler_director_error_witness :
    handler true ⟨[1, 2], some (.status codeUnimplemented "Unknown method")⟩
        (fun _ => none) (.c2s none) =
      ⟨some (.status codeUnimplemented "Unknown method"), 0, false, false⟩ :=
  handler_director_error ⟨[1, 2], some (.status codeUnimplemented "Unknown method")⟩
    (fun _ => none) (.c2s none) (.status codeUnimplemented "Unknown method") rfl

/-- C3 counterexample: a failing `SendMsg` to backend 0 on the first frame is
only logged and skipped (`break` leaves the destinations loop, the receive
loop continues with the next frame), the broadcast pipeline never signals, so
the call does not abort; and an open failure returns the error without ever
invoking `clientCancel`. -/
theorem write_failure_no_abort_cex :
    (forwardServerToClients 2
        (fun k i => if k == 0 && i == 0 then some (.transport 7) else none)
        [[1], [2]] .eof).retProduced = [] ∧
    (forwardServerToClients 2
        (fun k i => if k == 0 && i == 0 then some (.transport 7) else none)
        [[1], [2]] .eof).framesSent = [([1], []), ([2], [0, 1])] ∧
    (handler true ⟨[5, 6], none⟩ (fun _ => none) (.c2s none)).result = none ∧
    (handler true ⟨[5, 6], none⟩
        (fun i => if i == 0 then some (.transport 3) else none)
        (.c2s none)).cancelCalled = false := by
  refine ⟨?_, ?_, rfl, rfl⟩ <;> decide

/-- C3 as amended: a failing backend-stream open aborts the call with that
open error, with the remaining streams unopened and the pipelines never
started, but without triggering the per-call cancellation scope; a failing
frame write to a backend never aborts the call — the broadcast pipeline
signals no error on its channel and keeps processing every subsequent frame. -/
theorem backend_failure_handling (dir : DirectorReply) (openRes : Nat → Option GErr)
    (sig : FirstSignal) (i : Nat) (e : GErr) (hderr : dir.err = none)
    (hopen : firstOpenFailure openRes dir.conns.length 0 = some (i, e)) :
    handler true dir openRes sig = ⟨some e, i, false, false⟩ ∧
    (∀ (n : Nat) (sendRes : Nat → Nat → Option GErr) (frames : List Frame),
      (forwardServerToClients n sendRes frames .eof).retProduced = [] ∧
      (forwardServerToClients n sendRes frames .eof).framesSent.length
        = frames.length) := by
  refine ⟨by simp [handler, hderr, hopen], fun n sendRes frames => ⟨?_, ?_⟩⟩
  · exact bcastLoop_retProduced n sendRes .eof frames 0
  · exact bcastLoop_framesSent_length n sendRes .eof frames 0

/-- C3 witness: backend 0's stream fails to open. -/
theorem backend_failure_handling_witness :
    handler true ⟨[5, 6], none⟩
        (fun i => if i == 0 then some (.transport 3) else none) (.c2s none) =
      ⟨some (.transport 3), 0, false, false⟩ ∧
    (∀ (n : Nat) (sendRes : Nat → Nat → Option GErr) (frames : List Frame),
      (forwardServerToClients n sendRes frames .eof).retProduced = [] ∧
      (forwardServerToClients n sendRes frames .eof).framesSent.length
        = frames.length) :=
  backend_failure_handling ⟨[5, 6], none⟩
    (fun i => if i == 0 then some (.transport 3) else none) (.c2s none)
    0 (.transport 3) rfl rfl

/-- C5: the handler has no check for an empty backend set — on a route with
zero connection handles and `nil` error it proceeds, the fan-in coordinator
merges zero queued payloads into an empty frame, signals the successful send,
and the call completes successfully instead of failing as a routing failure. -/
theorem handler_zero_backends_completes :
    handler true ⟨[], none⟩ (fun _ => none) (.c2s none) = ⟨none, 0, false, true⟩ ∧
    Interleaving ([] : List (List Frame)) [] ∧
    (forwardClientsToServerUnary [] none).mergedSent = [] ∧
    (forwardClientsToServerUnary [] none).retProduced = [none] := by
  exact ⟨rfl, .done (by intro s hs; cases hs), rfl, rfl⟩

/-- C6 counterexample: a fan-in signal of `nil` (the normal result of the
coordinator's successful `SendMsg`) also completes the call successfully,
although it is not the `io.EOF` sentinel — so success is not "exactly when"
the signal is `io.EOF`. -/
theorem drain_nil_signal_success_cex :
    (handler true ⟨[5], none⟩ (fun _ => none) (.c2s none)).result = none ∧
    (none : Option GErr) ≠ some GErr.eof := by
  exact ⟨rfl, by decide⟩

/-- C6 as amended: if the broadcast pipeline signals first, `clientCancel` is
triggered and the call fails with an internal status wrapping the broadcast
error; if the fan-in pipeline signals first, any non-`io.EOF` value is
returned verbatim, so the call completes successfully exactly when the signal
is `io.EOF` or `nil`. -/
theorem drain_select_spec (dir : DirectorReply) (openRes : Nat → Option GErr)
    (hderr : dir.err = none)
    (hopen : firstOpenFailure openRes dir.conns.length 0 = none) :
    (∀ e : GErr, handler true dir openRes (.s2c e) =
      ⟨some (.statusOf codeInternal "failed proxying s2c" e),
        dir.conns.length, true, true⟩) ∧
    (∀ e : Option GErr, (handler true dir openRes (.c2s e)).result =
      if e = some .eof then none else e) ∧
    (∀ e : Option GErr, ((handler true dir openRes (.c2s e)).result = none ↔
      (e = some .eof ∨ e = none))) := by
  refine ⟨fun e => by simp [handler, hderr, hopen, drainSelect],
    fun e => by simp [handler, hderr, hopen, drainSelect], fun e => ?_⟩
  simp only [handler, hderr, hopen, drainSelect, Bool.not_true]
  rcases e with _ | x
  · simp
  · by_cases hx : x = GErr.eof <;> simp [hx]

/-- C6 witness: one backend, all opens succeed. -/
theorem drain_select_spec_witness :
    (∀ e : GErr, handler true ⟨[7], none⟩ (fun _ => none) (.s2c e) =
      ⟨some (.statusOf codeInternal "failed proxying s2c" e), 1, true, true⟩) ∧
    (∀ e : Option GErr, (handler true ⟨[7], none⟩ (fun _ => none) (.c2s e)).result =
      if e = some .eof then none else e) ∧
    (∀ e : Option GErr,
      ((handler true ⟨[7], none⟩ (fun _ => none) (.c2s e)).result = none ↔
        (e = some .eof ∨ e = none))) :=
  drain_select_spec ⟨[7], none⟩ (fun _ => none) rfl rfl

/-- C7 counterexample: on clean end-of-input from downstream the broadcast
goroutine returns without putting any value on its pending-error channel, so
zero values — not exactly one — are produced for that pipeline. -/
theorem broadcast_clean_eof_no_signal_cex :
    (forwardServerToClients 1 (fun _ _ => none) [[1]] .eof).retProduced.length = 0 ∧
    (0 : Nat) ≠ 1 := by
  exact ⟨rfl, by decide⟩

/-- C7 as amended: per call, the fan-in pipeline produces exactly one value
on its pending-error channel; the broadcast pipeline produces exactly one
value (its receive error) when the downstream receive fails and none on
clean end-of-input; neither channel is ever closed. -/
theorem pending_error_channel_discipline :
    (∀ (delivery : List Frame) (sendRes : Option GErr),
      (forwardClientsToServerUnary delivery sendRes).retProduced.length = 1 ∧
      (forwardClientsToServerUnary delivery sendRes).retClosed = false) ∧
    (∀ (n : Nat) (sendRes : Nat → Nat → Option GErr) (frames : List Frame)
        (e : GErr),
      (forwardServerToClients n sendRes frames (.rerr e)).retProduced = [some e]) ∧
    (∀ (n : Nat) (sendRes : Nat → Nat → Option GErr) (frames : List Frame),
      (forwardServerToClients n sendRes frames .eof).retProduced = []) ∧
    (∀ (n : Nat) (sendRes : Nat → Nat → Option GErr) (frames : List Frame)
        (term : DownTerm),
      (forwardServerToClients n sendRes frames term).retClosed = false) := by
  refine ⟨fun delivery sendRes => ⟨rfl, rfl⟩, fun n sendRes frames e => ?_,
    fun n sendRes frames => ?_, fun n sendRes frames term => ?_⟩
  · exact bcastLoop_retProduced n sendRes (.rerr e) frames 0
  · exact bcastLoop_retProduced n sendRes .eof frames 0
  · exact bcastLoop_retClosed n sendRes term frames 0

/-! ## Synchronized stream wrapper: `ServerStreamWrapper` -/

/-- The operations `ServerStreamWrapper` exposes on the downstream stream. -/
inductive StreamOp where
  | setHeader
  | sendHeader
  | setTrailer
  | sendMsg
  | recvMsg
  | context
deriving DecidableEq, Repr

/-- The wrapper's two mutexes. -/
inductive MuId where
  | sendMu
  | recvMu
deriving DecidableEq, Repr

/-- Which mutex each wrapper method locks for its whole body, read off the
source: `SetHeader`, `SendHeader`, `SetTrailer` and `SendMsg` lock `sendMu`;
`RecvMsg` locks `recvMu`; `Context` locks nothing. -/
def lockAcquired : StreamOp → Option MuId
  | .setHeader => some .sendMu
  | .sendHeader => some .sendMu
  | .setTrailer => some .sendMu
  | .sendMsg => some .sendMu
  | .recvMsg => some .recvMu
  | .context => none

/-- The send-family operations named by the wrapper's contract. -/
def isSendFamily : StreamOp → Bool
  | .setHeader => true
  | .sendHeader => true
  | .setTrailer => true
  | .sendMsg => true
  | _ => false

/-- The receive-family operations. -/
def isRecvFamily : StreamOp → Bool
  | .recvMsg => true
  | _ => false

/-- One critical section: a wrapper call holding its mutex over the logical
time interval `[start, stop)`. -/
structure Crit where
  op : StreamOp
  start : Nat
  stop : Nat
deriving DecidableEq, Repr

/-- Two critical sections overlap in time. -/
def Overlap (a b : Crit) : Prop := a.start < b.stop ∧ b.start < a.stop

instance (a b : Crit) : Decidable (Overlap a b) := by
  unfold Overlap
  infer_instance

/-- Mutex semantics: in a schedule of wrapper calls, two distinct critical
sections that acquire the same mutex never overlap. -/
def ValidSched (l : List Crit) : Prop :=
  ∀ a, a ∈ l → ∀ b, b ∈ l → a ≠ b → lockAcquired a.op = lockAcquired b.op →
    (lockAcquired a.op).isSome = true → ¬ Overlap a b

instance (l : List Crit) : Decidable (ValidSched l) := by
  unfold ValidSched
  infer_instance

/-- C9: the wrapper guards all of `SetHeader`, `SendHeader`, `SetTrailer` and
`SendMsg` under the one mutex `sendMu` and `RecvMsg` under the independent
mutex `recvMu`; hence in any schedule obeying mutex semantics two distinct
send-family calls never overlap (they are serialized), while a send-family
call and a receive call may overlap (a valid schedule exists in which they
do). -/
theorem serverStreamWrapper_two_locks (l : List Crit) (hv : ValidSched l) :
    (∀ op, isSendFamily op = true ↔ lockAcquired op = some MuId.sendMu) ∧
    (∀ op, isRecvFamily op = true ↔ lockAcquired op = some MuId.recvMu) ∧
    (∀ a, a ∈ l → ∀ b, b ∈ l → a ≠ b → isSendFamily a.op = true →
      isSendFamily b.op = true → ¬ Overlap a b) ∧
    (∃ l2 : List Crit, ValidSched l2 ∧ ∃ a, a ∈ l2 ∧ ∃ b, b ∈ l2 ∧
      isSendFamily a.op = true ∧ isRecvFamily b.op = true ∧ Overlap a b) := by
  refine ⟨fun op => by cases op <;> simp [isSendFamily, lockAcquired],
    fun op => by cases op <;> simp [isRecvFamily, lockAcquired], ?_, ?_⟩
  · intro a ha b hb hne hsa hsb
    have la : lockAcquired a.op = some MuId.sendMu := by
      cases hop : a.op <;> simp [hop, isSendFamily] at hsa <;> simp [lockAcquired]
    have lb : lockAcquired b.op = some MuId.sendMu := by
      cases hop : b.op <;> simp [hop, isSendFamily] at hsb <;> simp [lockAcquired]
    exact hv a ha b hb hne (la.trans lb.symm) (by simp [la])
  · refine ⟨[⟨.sendMsg, 0, 2⟩, ⟨.recvMsg, 0, 2⟩], by decide,
      ⟨.sendMsg, 0, 2⟩, by decide, ⟨.recvMsg, 0, 2⟩, by decide, ?_, ?_, ?_⟩ <;> decide

/-- C9 witness: a schedule of one `SendMsg` and one `SetHeader` section,
serialized back to back. -/
theorem serverStreamWrapper_two_locks_witness :
    ValidSched [⟨.sendMsg, 0, 2⟩, ⟨.setHeader, 2, 4⟩] ∧
    ¬ Overlap ⟨.sendMsg, 0, 2⟩ ⟨.setHeader, 2, 4⟩ :=
  ⟨by decide,
    (serverStreamWrapper_two_locks [⟨.sendMsg, 0, 2⟩, ⟨.setHeader, 2, 4⟩]
        (by decide)).2.2.1
      ⟨.sendMsg, 0, 2⟩ (by decide) ⟨.setHeader, 2, 4⟩ (by decide) (by decide)
      (by decide) (by decide)⟩

/-! ## The sample `Director` in `main.go` -/

/-- Result of one `grpc.DialContext`: the returned connection value and the
returned error. -/
structure DialRes where
  conn : Option Conn
  err : Option GErr
deriving DecidableEq, Repr

/-- The two fixed endpoints the sample director dials. -/
def directorEndpoints : List String := [":8051", ":8052"]

/-- The sample `Director`: with incoming metadata present it dials both fixed
endpoints, returns both connection handles, and returns the first non-nil
dial error (or `nil` when both dials succeed); with no incoming metadata it
returns a nil context, nil connections and
`grpc.Errorf(codes.Unimplemented, "Unknown method")`. -/
def director (incomingMD : Option MD) (dial1 dial2 : DialRes) :
    Option MD × List (Option Conn) × Option GErr :=
  match incomingMD with
  | some md => (some md, [dial1.conn, dial2.conn],
      if dial1.err.isSome then dial1.err else dial2.err)
  | none => (none, [], some (.status codeUnimplemented "Unknown method"))

/-- C10: with incoming metadata the sample director returns the copied
metadata context, both dialled connection handles (kept alongside any error),
and an error exactly when at least one dial failed — namely the first
non-nil dial error; with no incoming metadata it returns nil context, no
connections, and the unimplemented-method status. It dials exactly its two
fixed endpoints. -/
theorem director_spec (md : MD) (d1 d2 : DialRes) :
    director (some md) d1 d2 =
      (some md, [d1.conn, d2.conn],
        if d1.err.isSome then d1.err else d2.err) ∧
    ((director (some md) d1 d2).2.2.isSome ↔ (d1.err.isSome ∨ d2.err.isSome)) ∧
    (director (some md) d1 d2).2.1 = [d1.conn, d2.conn] ∧
    director none d1 d2 = (none, [], some (.status codeUnimplemented "Unknown method")) ∧
    directorEndpoints.length = 2 := by
  refine ⟨rfl, ?_, rfl, rfl, rfl⟩
  rcases h1 : d1.err with _ | e1 <;> rcases h2 : d2.err with _ | e2 <;>
    simp [director, h1, h2]

end GrpcProxy
